import Mathlib

/-!
Verification development for the `job_watcher` repository (`check_jobs.py`).

The file embeds the job-identity / filter / diff core of the script as
executable Lean definitions and proves the spec's testable properties
about them.  External collaborators (HTTP transport, HTML parsing, CSS
selection, notification formatting) are modelled as inputs, exactly as the
specification's component breakdown prescribes.
-/

namespace JobWatcher

/-! ### Basic string helpers

Python string primitives used by the script, modelled over `String`.
`str.lower` is modelled for ASCII (all keyword and URL-scheme uses in the
script are ASCII). -/

/-- Python `str.lower`, modelled for ASCII characters. -/
def strLower (s : String) : String :=
  String.mk (s.toList.map Char.toLower)

/-- Does `pat` occur at the head of `text`? (helper for substring search). -/
def listStarts : List Char → List Char → Bool
  | [], _ => true
  | _ :: _, [] => false
  | p :: ps, t :: ts => p == t && listStarts ps ts

/-- Does `pat` occur anywhere in `text`? (helper for substring search). -/
def listContainsSub (pat : List Char) : List Char → Bool
  | [] => pat.isEmpty
  | t :: ts => listStarts pat (t :: ts) || listContainsSub pat ts

/-- Python's `pat in s` substring test for strings. -/
def containsSub (pat s : String) : Bool :=
  listContainsSub pat.toList s.toList

/-- Python `s.startswith(pre)` (structural, so the kernel can evaluate it). -/
def strStartsWith (s pre : String) : Bool :=
  listStarts pre.toList s.toList

/-- Worker for `strSplitChar`, accumulating the current segment reversed. -/
def splitCharAux (sep : Char) : List Char → List Char → List String
  | [], acc => [String.mk acc.reverse]
  | c :: cs, acc =>
    if c == sep then String.mk acc.reverse :: splitCharAux sep cs []
    else splitCharAux sep cs (c :: acc)

/-- Python `s.split(sep)` for a one-character separator. -/
def strSplitChar (s : String) (sep : Char) : List String :=
  splitCharAux sep s.toList []

/-- Python `sep.join(parts)`. -/
def strJoin (sep : String) : List String → String
  | [] => ""
  | [x] => x
  | x :: y :: xs => x ++ sep ++ strJoin sep (y :: xs)

/-- Python `s[:n]`. -/
def strTake (s : String) (n : Nat) : String :=
  String.mk (s.toList.take n)

/-- Python `s[n:]`. -/
def strDrop (s : String) (n : Nat) : String :=
  String.mk (s.toList.drop n)

/-! ### SHA-256

Executable embedding of SHA-256 (FIPS 180-4), the hash the script invokes
through `hashlib.sha256`.  Words are `Nat`s reduced modulo `2 ^ 32`. -/

/-- 32-bit right rotation. -/
def rotr (n x : Nat) : Nat :=
  ((x >>> n) ||| (x <<< (32 - n))) % (2 ^ 32)

/-- SHA-256 round constants. -/
def sha256K : List Nat :=
  [1116352408, 1899447441, 3049323471, 3921009573, 961987163, 1508970993,
   2453635748, 2870763221, 3624381080, 310598401, 607225278, 1426881987,
   1925078388, 2162078206, 2614888103, 3248222580, 3835390401, 4022224774,
   264347078, 604807628, 770255983, 1249150122, 1555081692, 1996064986,
   2554220882, 2821834349, 2952996808, 3210313671, 3336571891, 3584528711,
   113926993, 338241895, 666307205, 773529912, 1294757372, 1396182291,
   1695183700, 1986661051, 2177026350, 2456956037, 2730485921, 2820302411,
   3259730800, 3345764771, 3516065817, 3600352804, 4094571909, 275423344,
   430227734, 506948616, 659060556, 883997877, 958139571, 1322822218,
   1537002063, 1747873779, 1955562222, 2024104815, 2227730452, 2361852424,
   2428436474, 2756734187, 3204031479, 3329325298]

/-- SHA-256 initial hash value. -/
def sha256H0 : List Nat :=
  [1779033703, 3144134277, 1013904242, 2773480762,
   1359893119, 2600822924, 528734635, 1541459225]

/-- Big-endian 8-byte encoding of a natural number (the length field). -/
def lenBytes (n : Nat) : List Nat :=
  [(n >>> 56) % 256, (n >>> 48) % 256, (n >>> 40) % 256, (n >>> 32) % 256,
   (n >>> 24) % 256, (n >>> 16) % 256, (n >>> 8) % 256, n % 256]

/-- SHA-256 message padding for a message of `len` bytes. -/
def sha256Pad (len : Nat) : List Nat :=
  0x80 :: List.replicate ((119 - (len % 64)) % 64) 0 ++ lenBytes (8 * len)

/-- Group bytes into big-endian 32-bit words. -/
def bytesToWords : List Nat → List Nat
  | b0 :: b1 :: b2 :: b3 :: rest =>
    ((b0 <<< 24) ||| (b1 <<< 16) ||| (b2 <<< 8) ||| b3) :: bytesToWords rest
  | _ => []

/-- Split a byte list into 64-byte blocks (structural recursion on a fuel
counter so that the kernel can evaluate it; the fuel `l.length` always
suffices because every step consumes at least one byte). -/
def toBlocksFuel : Nat → List Nat → List (List Nat)
  | 0, _ => []
  | _ + 1, [] => []
  | fuel + 1, x :: xs => (x :: xs).take 64 :: toBlocksFuel fuel (xs.drop 63)

/-- Split a byte list into 64-byte blocks. -/
def toBlocks (l : List Nat) : List (List Nat) :=
  toBlocksFuel l.length l

/-- σ₀ of the message schedule. -/
def ssig0 (x : Nat) : Nat := rotr 7 x ^^^ rotr 18 x ^^^ (x >>> 3)

/-- σ₁ of the message schedule. -/
def ssig1 (x : Nat) : Nat := rotr 17 x ^^^ rotr 19 x ^^^ (x >>> 10)

/-- Extend the 16-word schedule by `n` further words. -/
def extendSched (w : List Nat) : Nat → List Nat
  | 0 => w
  | n + 1 =>
    let i := w.length
    let nw := (w.getD (i - 16) 0 + ssig0 (w.getD (i - 15) 0) +
               w.getD (i - 7) 0 + ssig1 (w.getD (i - 2) 0)) % (2 ^ 32)
    extendSched (w ++ [nw]) n

/-- One SHA-256 round on the eight working variables. -/
def sha256Round (st : List Nat) (wi ki : Nat) : List Nat :=
  match st with
  | [a, b, c, d, e, f, g, h] =>
    let s1 := rotr 6 e ^^^ rotr 11 e ^^^ rotr 25 e
    let ch := (e &&& f) ^^^ ((e ^^^ 0xffffffff) &&& g)
    let t1 := (h + s1 + ch + ki + wi) % (2 ^ 32)
    let s0 := rotr 2 a ^^^ rotr 13 a ^^^ rotr 22 a
    let mj := (a &&& b) ^^^ (a &&& c) ^^^ (b &&& c)
    let t2 := (s0 + mj) % (2 ^ 32)
    [(t1 + t2) % (2 ^ 32), a, b, c, (d + t1) % (2 ^ 32), e, f, g]
  | _ => st

/-- Compress a single 64-byte block into the hash value. -/
def compressBlock (hv : List Nat) (block : List Nat) : List Nat :=
  let w := extendSched (bytesToWords block) 48
  let st := (List.zip w sha256K).foldl (fun s p => sha256Round s p.1 p.2) hv
  List.zipWith (fun x y => (x + y) % (2 ^ 32)) hv st

/-- Big-endian bytes of a 32-bit word. -/
def wordBytes (w : Nat) : List Nat :=
  [(w >>> 24) % 256, (w >>> 16) % 256, (w >>> 8) % 256, w % 256]

/-- SHA-256 digest (32 bytes) of a byte sequence. -/
def sha256Bytes (msg : List Nat) : List Nat :=
  let padded := msg ++ sha256Pad msg.length
  let hv := (toBlocks padded).foldl compressBlock sha256H0
  (hv.map wordBytes).flatten

/-- Lowercase hexadecimal digit. -/
def hexChar (n : Nat) : Char :=
  if n < 10 then Char.ofNat (48 + n) else Char.ofNat (87 + n)

/-- Lowercase hexadecimal rendering of a byte sequence (Python `hexdigest`). -/
def bytesToHex (bs : List Nat) : String :=
  String.mk ((bs.map (fun b => [hexChar (b / 16), hexChar (b % 16)])).flatten)

/-- UTF-8 encoding of one character (Python `str.encode("utf-8")`). -/
def utf8Char (c : Char) : List Nat :=
  let n := c.toNat
  if n < 0x80 then [n]
  else if n < 0x800 then
    [0xc0 ||| (n >>> 6), 0x80 ||| (n &&& 0x3f)]
  else if n < 0x10000 then
    [0xe0 ||| (n >>> 12), 0x80 ||| ((n >>> 6) &&& 0x3f), 0x80 ||| (n &&& 0x3f)]
  else
    [0xf0 ||| (n >>> 18), 0x80 ||| ((n >>> 12) &&& 0x3f),
     0x80 ||| ((n >>> 6) &&& 0x3f), 0x80 ||| (n &&& 0x3f)]

/-- UTF-8 encoding of a string. -/
def utf8Str (s : String) : List Nat :=
  (s.toList.map utf8Char).flatten

/-- `hashlib.sha256(s.encode("utf-8")).hexdigest()`. -/
def sha256Hex (s : String) : String :=
  bytesToHex (sha256Bytes (utf8Str s))

/-! ### Internship classifier — `JobChecker.is_internship` -/

/-- The keyword list of `JobChecker.is_internship` (`check_jobs.py:145-148`). -/
def internship_keywords : List String :=
  ["intern", "internship", "summer", "co-op", "co op", "coop",
   "student", "entry level", "new grad", "recent grad", "graduate program"]

/-- `JobChecker.is_internship` (`check_jobs.py:142-149`): the lowercased
title contains at least one keyword. -/
def is_internship (job_title : String) : Bool :=
  let title_lower := strLower job_title
  internship_keywords.any (fun keyword => containsSub keyword title_lower)

/-! ### `urllib.parse.urljoin`

Executable embedding of CPython's `urljoin`/`urlsplit`/`urlunsplit`
(`Lib/urllib/parse.py`) for plain URL strings, which `fetch_jobs` uses to
absolutise hrefs. -/

/-- Characters CPython allows inside a URL scheme. -/
def isSchemeChar (c : Char) : Bool :=
  c.isAlphanum || c == '+' || c == '-' || c == '.'

/-- The result of `urlsplit`: scheme, netloc, path, query, fragment. -/
structure SplitUrl where
  scheme : String
  netloc : String
  path : String
  query : String
  fragment : String
  deriving DecidableEq

/-- Split off a leading `scheme:` if the prefix before the first `:` is a
valid scheme (starts with a letter, all scheme characters). -/
def splitScheme (url : String) : Option (String × String) :=
  match url.toList.findIdx? (· == ':') with
  | none => none
  | some i =>
    let pre := url.toList.take i
    if 0 < i && (pre.headD ' ').isAlpha && pre.all isSchemeChar then
      some (strLower (String.mk pre), String.mk (url.toList.drop (i + 1)))
    else
      none

/-- Split a string at the first occurrence of `c`, dropping `c`. -/
def splitOnceAt (c : Char) (s : String) : Option (String × String) :=
  match s.toList.findIdx? (· == c) with
  | none => none
  | some i => some (String.mk (s.toList.take i), String.mk (s.toList.drop (i + 1)))

/-- `_splitnetloc`: the netloc runs until the first `/`, `?` or `#`. -/
def splitNetloc (s : String) : String × String :=
  match s.toList.findIdx? (fun c => c == '/' || c == '?' || c == '#') with
  | none => (s, "")
  | some i => (String.mk (s.toList.take i), String.mk (s.toList.drop i))

/-- `urllib.parse.urlsplit` with a default scheme (fragments allowed). -/
def urlsplit (url : String) (defaultScheme : String) : SplitUrl :=
  let (scheme, rest) :=
    match splitScheme url with
    | some p => p
    | none => (defaultScheme, url)
  let (netloc, rest) :=
    if strStartsWith rest "//" then splitNetloc (strDrop rest 2) else ("", rest)
  let (rest, fragment) :=
    match splitOnceAt '#' rest with
    | some p => p
    | none => (rest, "")
  let (path, query) :=
    match splitOnceAt '?' rest with
    | some p => p
    | none => (rest, "")
  ⟨scheme, netloc, path, query, fragment⟩

/-- `urllib.parse.urlunsplit`. -/
def urlunsplit (u : SplitUrl) : String :=
  let url := u.path
  let url :=
    if u.netloc != "" || (url != "" && strStartsWith url "//") then
      "//" ++ u.netloc ++ (if url != "" && !strStartsWith url "/" then "/" ++ url else url)
    else url
  let url := if u.scheme != "" then u.scheme ++ ":" ++ url else url
  let url := if u.query != "" then url ++ "?" ++ u.query else url
  if u.fragment != "" then url ++ "#" ++ u.fragment else url

/-- `urllib.parse.uses_relative`. -/
def usesRelative : List String :=
  ["", "ftp", "http", "gopher", "nntp", "imap", "wais", "file", "https",
   "shttp", "mms", "prospero", "rtsp", "rtspu", "sftp", "svn", "svn+ssh",
   "ws", "wss"]

/-- `urllib.parse.uses_netloc`. -/
def usesNetloc : List String :=
  ["", "ftp", "http", "gopher", "nntp", "telnet", "imap", "wais", "file",
   "mms", "https", "shttp", "snews", "prospero", "rtsp", "rtspu", "rsync",
   "svn", "svn+ssh", "sftp", "nfs", "git", "git+ssh", "ws", "wss"]

/-- `del base_parts[-1] if base_parts[-1] != ''`. -/
def dropLastSegmentIfNonEmpty (parts : List String) : List String :=
  match parts.getLast? with
  | some "" => parts
  | _ => parts.dropLast

/-- `segments[1:-1] = filter(None, segments[1:-1])`: drop empty segments
except in first and last position. -/
def filterInnerSegments : List String → List String
  | [] => []
  | [x] => [x]
  | x :: xs =>
    x :: (xs.dropLast.filter (fun s => s != "")) ++
      (match xs.getLast? with
       | some y => [y]
       | none => [])

/-- The `'..'` / `'.'` resolution loop of `urljoin`. -/
def resolveSegments : List String → List String → List String
  | [], acc => acc
  | s :: rest, acc =>
    if s == ".." then resolveSegments rest acc.dropLast
    else if s == "." then resolveSegments rest acc
    else resolveSegments rest (acc ++ [s])

/-- `urllib.parse.urljoin` (CPython `Lib/urllib/parse.py`). -/
def urljoin (base url : String) : String :=
  if base == "" then url
  else if url == "" then base
  else
    let b := urlsplit base ""
    let u := urlsplit url b.scheme
    if u.scheme != b.scheme || !(usesRelative.contains u.scheme) then url
    else if usesNetloc.contains u.scheme && u.netloc != "" then
      urlunsplit ⟨u.scheme, u.netloc, u.path, u.query, u.fragment⟩
    else
      let netloc := if usesNetloc.contains u.scheme then b.netloc else u.netloc
      if u.path == "" then
        let query := if u.query == "" then b.query else u.query
        urlunsplit ⟨u.scheme, netloc, b.path, query, u.fragment⟩
      else
        let segments :=
          if strStartsWith u.path "/" then strSplitChar u.path '/'
          else
            filterInnerSegments
              (dropLastSegmentIfNonEmpty (strSplitChar b.path '/') ++ strSplitChar u.path '/')
        let resolved := resolveSegments segments []
        let resolved :=
          if segments.getLast? == some "." || segments.getLast? == some ".." then
            resolved ++ [""]
          else resolved
        let joined := strJoin "/" resolved
        let path := if joined == "" then "/" else joined
        urlunsplit ⟨u.scheme, netloc, path, u.query, u.fragment⟩

/-! ### Data model -/

/-- A configured site (`SiteConfig` of the spec; the dicts handled by
`load_job_sites_config` and `run`).  `wait_selector` is only consumed by
the external Playwright transport. -/
structure SiteConfig where
  name : String
  url : String
  selector : Option String := none
  wait_selector : Option String := none
  deriving DecidableEq

/-- A candidate element as delivered by the external HTML extractor
(BeautifulSoup): tag name, optional `href` attribute, and the result of
`get_text(strip=True)`. -/
structure Element where
  tag : String
  href : Option String
  text : String
  deriving DecidableEq

/-- A fetched page as seen by `fetch_jobs` after transport and parsing.
`elements` is the parsed DOM's element sequence, `select` the external CSS
selection engine (`soup.select`).  `finalUrl` is the post-redirect URL the
HTTP transport ends at; the script never reads it (requests' `response.url`
is discarded), it is carried here only so that the spec's notion of
"effective base" can be stated. -/
structure Page where
  finalUrl : String
  elements : List Element
  select : String → List Element

/-- A job record produced by `fetch_jobs` (`{"id", "title", "link"}`). -/
structure JobRecord where
  id : String
  title : String
  link : String
  deriving DecidableEq

/-- A value stored in the seen-set (`{"title", "link", "site"}`). -/
structure SeenEntry where
  title : String
  link : String
  site : String
  deriving DecidableEq

/-- The seen-set: a Python dict modelled as an insertion-ordered
association list from composite key to entry. -/
abbrev Seen := List (String × SeenEntry)

/-- Dict membership `k in seen`. -/
def seenMem (seen : Seen) (k : String) : Bool :=
  seen.any (fun p => p.1 == k)

/-- Dict lookup `seen[k]`. -/
def seenLookup (seen : Seen) (k : String) : Option SeenEntry :=
  (seen.find? (fun p => p.1 == k)).map Prod.snd

/-- Dict assignment `seen[k] = v`: overwrite if present, append otherwise. -/
def seenInsert (seen : Seen) (k : String) (v : SeenEntry) : Seen :=
  if seenMem seen k then
    seen.map (fun p => if p.1 == k then (k, v) else p)
  else
    seen ++ [(k, v)]

/-! ### Job identity and filter pipeline — `JobChecker.fetch_jobs` -/

/-- The stable ID of `fetch_jobs` (`check_jobs.py:128-130`):
`hashlib.sha256(f"{text}|{link}".encode("utf-8")).hexdigest()[:16]`. -/
def job_id (title link : String) : String :=
  strTake (sha256Hex (title ++ "|" ++ link)) 16

/-- The fallback job-ish filter (`check_jobs.py:109`):
`"job" in a["href"].lower()`. -/
def hrefHasJob (el : Element) : Bool :=
  match el.href with
  | some h => containsSub "job" (strLower h)
  | none => false

/-- Element selection of `fetch_jobs` (`check_jobs.py:104-109`): use the
configured CSS selector if present, otherwise all `<a>` elements carrying
an `href` whose value contains `"job"` case-insensitively. -/
def selectElements (cfg : SiteConfig) (page : Page) : List Element :=
  match cfg.selector with
  | some sel => page.select sel
  | none =>
    (page.elements.filter (fun el => el.tag == "a" && el.href.isSome)).filter hrefHasJob

/-- The per-element body of the `fetch_jobs` loop (`check_jobs.py:113-138`):
drop empty titles, non-internships, and absent/empty/anchor-only hrefs;
absolutise the href against the site's configured URL; emit the record. -/
def recordOfElement (baseUrl : String) (el : Element) : Option JobRecord :=
  let text := el.text
  if text == "" then none
  else if !is_internship text then none
  else
    let href := el.href.getD ""
    if href == "" || strStartsWith href "#" then none
    else
      let link := urljoin baseUrl href
      some { id := job_id text link, title := text, link := link }

/-- `JobChecker.fetch_jobs` on a successfully fetched and parsed page. -/
def fetchJobsFromPage (cfg : SiteConfig) (page : Page) : List JobRecord :=
  (selectElements cfg page).filterMap (recordOfElement cfg.url)

/-- `JobChecker.fetch_jobs` including the transport outcome: scrape errors
are caught by `scrape_with_requests` / `scrape_with_playwright`, which
return empty content, and `fetch_jobs` then returns `[]`
(`check_jobs.py:99-100`). -/
def fetch_jobs (cfg : SiteConfig) (fetched : Except String Page) : List JobRecord :=
  match fetched with
  | .error _ => []
  | .ok page => fetchJobsFromPage cfg page

/-! ### Diff against the seen-set — the per-site loop of `JobChecker.run` -/

/-- The composite dedup key `f"{site_name}::{job['id']}"`
(`check_jobs.py:391`). -/
def compositeKey (siteName : String) (job : JobRecord) : String :=
  siteName ++ "::" ++ job.id

/-- The new-vs-seen diff of `JobChecker.run` (`check_jobs.py:388-398`): a
record whose composite key is absent is appended to the new-list and
inserted into the seen-set; a record whose key is present is skipped. -/
def diffSite (siteName : String) : List JobRecord → Seen → List JobRecord × Seen
  | [], seen => ([], seen)
  | job :: rest, seen =>
    let key := compositeKey siteName job
    if seenMem seen key then
      diffSite siteName rest seen
    else
      let r := diffSite siteName rest
        (seenInsert seen key { title := job.title, link := job.link, site := siteName })
      (job :: r.1, r.2)

/-- The sequential per-site loop of `JobChecker.run`
(`check_jobs.py:375-410`): fetch, diff, collect `all_new_jobs_by_site` in
configuration order while threading the seen-set. -/
def runAll : List SiteConfig → (SiteConfig → Except String Page) → Seen →
    List (String × List JobRecord) × Seen
  | [], _, seen => ([], seen)
  | cfg :: rest, pages, seen =>
    let r := diffSite cfg.name (fetch_jobs cfg (pages cfg)) seen
    let tail := runAll rest pages r.2
    ((cfg.name, r.1) :: tail.1, tail.2)

/-! ### Configuration, state file, and the run driver -/

/-- The environment variables read by the script.  A Python env var that is
unset (or empty, which the truthiness checks treat identically for
`JOB_SITES_CONFIG` and `JOB_URL`) is `none`.  For `JOB_SITES_CONFIG` the
outer `Option` is presence and the inner `Option` the `json.loads` outcome
(`none` = `JSONDecodeError`), with the payload modelled as the parsed list
of site configurations. -/
structure Env where
  jobSitesConfig : Option (Option (List SiteConfig))
  jobUrl : Option String
  jobSelector : Option String
  jobSiteName : Option String
  webhookUrl : Option String

/-- `JobChecker.load_job_sites_config` (`check_jobs.py:333-359`): a parsed
`JOB_SITES_CONFIG` wins; an absent or unparseable one falls back to the
single-site `JOB_URL` shorthand; with neither, the `RuntimeError` at line
359 escapes uncaught (`Except.error`). -/
def load_job_sites_config (env : Env) : Except String (List SiteConfig) :=
  match env.jobSitesConfig with
  | some (some sites) => .ok sites
  | _ =>
    match env.jobUrl with
    | some url =>
      .ok [{ name := env.jobSiteName.getD url, url := url, selector := env.jobSelector }]
    | none =>
      .error "No job sites configuration found. Please set JOB_SITES_CONFIG or JOB_URL environment variable."

/-- `JobChecker.load_seen_jobs` (`check_jobs.py:151-160`).  The state-file
outcome is modelled as: `none` = file does not exist, `some none` = file
exists but reading or JSON-parsing raises, `some (some m)` = file parses
to the mapping `m`. -/
def load_seen_jobs (stateFile : Option (Option Seen)) : Seen :=
  match stateFile with
  | none => []
  | some none => []
  | some (some m) => m

/-- The observable outcome of a completed `JobChecker.run`
(`check_jobs.py:361-448`): the aggregated new-job mapping, the `has_new`
flag and `email_body` emitted as pipeline outputs, the seen-set handed to
`save_seen_jobs`, and whether a webhook notification went through. -/
structure RunResult where
  newBySite : List (String × List JobRecord)
  hasNew : Bool
  emailBody : String
  seenSaved : Seen
  webhookSent : Bool

/-- `JobChecker.run` (`check_jobs.py:361-448`).  External collaborators are
inputs, per the spec's component breakdown: `pages` is the per-site
transport outcome, `webhook` the delivery outcome of a webhook POST, and
`fmtEmail` the email formatter (`create_email_body`).  A config failure
escapes as `Except.error` (uncaught, process-terminating); a webhook
failure is caught at `check_jobs.py:428-432` and only recorded. -/
def run (env : Env) (pages : SiteConfig → Except String Page)
    (webhook : String → Except String Unit)
    (stateFile : Option (Option Seen))
    (fmtEmail : List (String × List JobRecord) → String) :
    Except String RunResult :=
  match load_job_sites_config env with
  | .error e => .error e
  | .ok job_sites =>
    let seen0 := load_seen_jobs stateFile
    let r := runAll job_sites pages seen0
    let total_new_jobs : Nat := (r.1.map (fun p => p.2.length)).sum
    let has_new := decide (0 < total_new_jobs)
    let email_body := if has_new then fmtEmail r.1 else ""
    let webhookSent :=
      if has_new then
        match env.webhookUrl with
        | some u =>
          match webhook u with
          | .ok _ => true
          | .error _ => false
        | none => false
      else false
    .ok { newBySite := r.1, hasNew := has_new, emailBody := email_body,
          seenSaved := r.2, webhookSent := webhookSent }

/-- Did `load_job_sites_config` obtain a parsed `JOB_SITES_CONFIG`? -/
def configParsed (env : Env) : Bool :=
  match env.jobSitesConfig with
  | some (some _) => true
  | _ => false

/-- The two fallback filters of `fetch_jobs` combined: does the
selector-less branch keep this element at all? -/
def fallbackKeeps (el : Element) : Bool :=
  (el.tag == "a" && el.href.isSome) && hrefHasJob el

/-! ### Spec-side definition for claim C5

The specification asserts that hrefs are resolved against the page's
*effective* base, i.e. the post-redirect URL.  The script itself never
consults that URL; this definition renders the spec's wording so it can be
compared with the embedded code. -/

/-- The link resolution the specification describes: the href resolved
against the fetched page's post-redirect URL. -/
def specEffectiveBaseLink (page : Page) (href : String) : String :=
  urljoin page.finalUrl href

/-! ### Concrete instances used by witnesses and counterexamples -/

/-- A site configuration without a CSS selector. -/
def demoC2cfg : SiteConfig := { name := "siteA", url := "https://x.example/careers" }

/-- One internship anchor with a relative href. -/
def demoC2el : Element :=
  { tag := "a", href := some "/jobs/2", text := "Summer Analyst" }

/-- A page carrying `demoC2el`. -/
def demoC2page : Page :=
  { finalUrl := "https://x.example/careers", elements := [demoC2el], select := fun _ => [] }

/-- The record `fetch_jobs` produces from `demoC2el` (id checked against
`hashlib.sha256`). -/
def demoC2rec : JobRecord :=
  { id := "bf36b7dce5daebba", title := "Summer Analyst", link := "https://x.example/jobs/2" }

/-- An internship anchor with an absolute href, served by two sites. -/
def demoC3el : Element :=
  { tag := "a", href := some "https://x.example/job/1", text := "Software Intern" }

/-- First of two sites sharing markup but not names. -/
def demoC3cfgA : SiteConfig := { name := "siteA", url := "https://x.example/careers" }

/-- Second of two sites sharing markup but not names. -/
def demoC3cfgB : SiteConfig := { name := "siteB", url := "https://x.example/careers" }

/-- Transport serving the same single-element page to every site. -/
def demoC3pages : SiteConfig → Except String Page := fun cfg =>
  .ok { finalUrl := cfg.url, elements := [demoC3el], select := fun _ => [] }

/-- The record both sites extract (same bare id on both). -/
def demoC3job : JobRecord :=
  { id := "a738c1d8ceeb8049", title := "Software Intern", link := "https://x.example/job/1" }

/-- Site configuration for the duplicate-markup scenario. -/
def demoC4cfg : SiteConfig := { name := "site", url := "https://x.example/careers" }

/-- A job anchor that appears twice in the page (mirrored markup). -/
def demoC4el : Element :=
  { tag := "a", href := some "https://x.example/job/1", text := "Software Intern" }

/-- A page on which the same anchor occurs twice. -/
def demoC4page : Page :=
  { finalUrl := "https://x.example/careers", elements := [demoC4el, demoC4el],
    select := fun _ => [] }

/-- The record each copy of `demoC4el` produces. -/
def demoC4rec : JobRecord :=
  { id := "a738c1d8ceeb8049", title := "Software Intern", link := "https://x.example/job/1" }

/-- Two records sharing an id but not metadata. -/
def demoC4j1 : JobRecord :=
  { id := "x1", title := "Title one", link := "https://a.example/job/1" }

/-- Two records sharing an id but not metadata. -/
def demoC4j2 : JobRecord :=
  { id := "x1", title := "Title two", link := "https://a.example/job/1?ref=mirror" }

/-- A site configured with a pre-redirect URL. -/
def demoC5cfg : SiteConfig := { name := "s", url := "http://old.example/jobs/" }

/-- An internship anchor with a relative href. -/
def demoC5el : Element := { tag := "a", href := some "job/1", text := "Software Intern" }

/-- A page whose transport was redirected: its effective (post-redirect)
URL differs from the configured URL. -/
def demoC5page : Page :=
  { finalUrl := "http://new.example/listings/", elements := [demoC5el], select := fun _ => [] }

/-- The record `fetch_jobs` produces from `demoC5el` under `demoC5cfg`. -/
def demoC5rec : JobRecord :=
  { id := "4fe334d755b0498f", title := "Software Intern",
    link := "http://old.example/jobs/job/1" }

/-- A seen-set already holding key `site::abc` with old metadata. -/
def demoC7seen : Seen :=
  [("site::abc", { title := "Old title", link := "https://a.example/job/old", site := "site" })]

/-- A record with the already-seen id but changed metadata. -/
def demoC7job : JobRecord :=
  { id := "abc", title := "Fresh title", link := "https://a.example/job/new" }

/-- An environment whose `JOB_SITES_CONFIG` parses to an empty site list
and which sets no `JOB_URL`. -/
def demoC8env : Env :=
  { jobSitesConfig := some (some []), jobUrl := none, jobSelector := none,
    jobSiteName := none, webhookUrl := none }

/-- A selector-less site configuration. -/
def demoC10cfg : SiteConfig := { name := "s", url := "https://x.example/" }

/-- One matching anchor, one `<div>` with an internship title, and one
anchor whose href lacks `"job"`. -/
def demoC10els : List Element :=
  [{ tag := "a", href := some "/job/1", text := "Software Engineering Intern" },
   { tag := "div", href := some "/job/2", text := "Data Science Intern" },
   { tag := "a", href := some "/careers/3", text := "Quant Intern" }]

/-- A page carrying `demoC10els`. -/
def demoC10page : Page :=
  { finalUrl := "https://x.example/", elements := demoC10els, select := fun _ => [] }

/-! ### Helper lemmas about the seen-set and the diff loop -/

theorem seenMem_append (s t : Seen) (k : String) :
    seenMem (s ++ t) k = (seenMem s k || seenMem t k) := by
  simp [seenMem, List.any_append]

theorem seenInsert_of_not_mem {seen : Seen} {k : String} (v : SeenEntry)
    (h : seenMem seen k = false) : seenInsert seen k v = seen ++ [(k, v)] := by
  simp [seenInsert, h]

theorem seenMem_singleton (k k' : String) (v : SeenEntry) :
    seenMem [(k, v)] k' = (k == k') := by
  simp [seenMem]

theorem seenLookup_append_of_mem {seen : Seen} (t : Seen) {k : String}
    (h : seenMem seen k = true) : seenLookup (seen ++ t) k = seenLookup seen k := by
  induction seen with
  | nil => simp [seenMem] at h
  | cons p rest ih =>
    by_cases hp : (p.1 == k) = true
    · simp [seenLookup, List.find?, hp]
    · have h' : seenMem rest k = true := by
        simpa [seenMem, hp] using h
      simpa [seenLookup, List.find?, hp] using ih h'

theorem diffSite_mem_mono (s : String) (jobs : List JobRecord) :
    ∀ (seen : Seen) (k : String), seenMem seen k = true →
      seenMem (diffSite s jobs seen).2 k = true := by
  induction jobs with
  | nil => intro seen k h; simpa [diffSite] using h
  | cons job rest ih =>
    intro seen k h
    by_cases hj : seenMem seen (compositeKey s job) = true
    · simpa [diffSite, hj] using ih seen k h
    · have hmem : seenMem
          (seenInsert seen (compositeKey s job) ⟨job.title, job.link, s⟩) k = true := by
        rw [seenInsert_of_not_mem _ (by simpa using hj), seenMem_append, h]
        rfl
      simpa [diffSite, hj] using ih _ k hmem

theorem diffSite_mem_key (s : String) (jobs : List JobRecord) :
    ∀ (seen : Seen) (j : JobRecord), j ∈ jobs →
      seenMem (diffSite s jobs seen).2 (compositeKey s j) = true := by
  induction jobs with
  | nil => intro _ _ hj; cases hj
  | cons job rest ih =>
    intro seen j hj
    by_cases hm : seenMem seen (compositeKey s job) = true
    · rcases List.mem_cons.mp hj with rfl | hr
      · simpa [diffSite, hm] using diffSite_mem_mono s rest seen _ hm
      · simpa [diffSite, hm] using ih seen j hr
    · have hmem : seenMem
          (seenInsert seen (compositeKey s job) ⟨job.title, job.link, s⟩)
            (compositeKey s job) = true := by
        rw [seenInsert_of_not_mem _ (by simpa using hm), seenMem_append]
        simp [seenMem_singleton]
      rcases List.mem_cons.mp hj with rfl | hr
      · simpa [diffSite, hm] using diffSite_mem_mono s rest _ _ hmem
      · simpa [diffSite, hm] using ih _ j hr

theorem diffSite_all_seen (s : String) (jobs : List JobRecord) (seen : Seen) :
    (∀ j ∈ jobs, seenMem seen (compositeKey s j) = true) →
      diffSite s jobs seen = ([], seen) := by
  induction jobs with
  | nil => intro _; rfl
  | cons job rest ih =>
    intro h
    have hm := h job (by simp)
    have hr : ∀ j ∈ rest, seenMem seen (compositeKey s j) = true :=
      fun j hj => h j (by simp [hj])
    simp [diffSite, hm, ih hr]

theorem diffSite_lookup_of_mem (s : String) (jobs : List JobRecord) :
    ∀ (seen : Seen) (k : String), seenMem seen k = true →
      seenLookup (diffSite s jobs seen).2 k = seenLookup seen k := by
  induction jobs with
  | nil => intro seen k _; rfl
  | cons job rest ih =>
    intro seen k h
    by_cases hj : seenMem seen (compositeKey s job) = true
    · simpa [diffSite, hj] using ih seen k h
    · have hins := seenInsert_of_not_mem
        (⟨job.title, job.link, s⟩ : SeenEntry) (by simpa using hj)
      have hmem : seenMem
          (seenInsert seen (compositeKey s job) ⟨job.title, job.link, s⟩) k = true := by
        rw [hins, seenMem_append, h]; rfl
      have hlook := ih _ k hmem
      rw [hins] at hlook
      rw [seenLookup_append_of_mem _ h] at hlook
      simpa [diffSite, hj, hins] using hlook

theorem diffSite_new_key_not_seen (s : String) (jobs : List JobRecord) :
    ∀ (seen : Seen) (k : String), seenMem seen k = true →
      ∀ j ∈ (diffSite s jobs seen).1, compositeKey s j ≠ k := by
  induction jobs with
  | nil => intro seen k _ j hj; simp [diffSite] at hj
  | cons job rest ih =>
    intro seen k h j hj
    by_cases hm : seenMem seen (compositeKey s job) = true
    · exact ih seen k h j (by simpa [diffSite, hm] using hj)
    · have hmem : seenMem
          (seenInsert seen (compositeKey s job) ⟨job.title, job.link, s⟩) k = true := by
        rw [seenInsert_of_not_mem _ (by simpa using hm), seenMem_append, h]; rfl
      rcases List.mem_cons.mp (by simpa [diffSite, hm] using hj) with rfl | hr
      · intro hk
        rw [hk] at hm
        exact hm h
      · exact ih _ k hmem j hr

theorem runAll_mem_mono (sites : List SiteConfig) (pages : SiteConfig → Except String Page) :
    ∀ (seen : Seen) (k : String), seenMem seen k = true →
      seenMem (runAll sites pages seen).2 k = true := by
  induction sites with
  | nil => intro seen k h; simpa [runAll] using h
  | cons cfg rest ih =>
    intro seen k h
    simpa [runAll] using ih _ k (diffSite_mem_mono _ _ seen k h)

theorem runAll_mem_key (sites : List SiteConfig) (pages : SiteConfig → Except String Page) :
    ∀ (seen : Seen), ∀ cfg ∈ sites, ∀ j ∈ fetch_jobs cfg (pages cfg),
      seenMem (runAll sites pages seen).2 (compositeKey cfg.name j) = true := by
  induction sites with
  | nil => intro _ _ hc; cases hc
  | cons c rest ih =>
    intro seen cfg hc j hj
    rcases List.mem_cons.mp hc with rfl | hr
    · simpa [runAll] using
        runAll_mem_mono rest pages _ _ (diffSite_mem_key _ _ seen j hj)
    · simpa [runAll] using ih _ cfg hr j hj

theorem runAll_all_seen (sites : List SiteConfig) (pages : SiteConfig → Except String Page)
    (seen : Seen) :
    (∀ cfg ∈ sites, ∀ j ∈ fetch_jobs cfg (pages cfg),
        seenMem seen (compositeKey cfg.name j) = true) →
      runAll sites pages seen = (sites.map (fun c => (c.name, ([] : List JobRecord))), seen) := by
  induction sites with
  | nil => intro _; rfl
  | cons c rest ih =>
    intro h
    have hc : diffSite c.name (fetch_jobs c (pages c)) seen = ([], seen) :=
      diffSite_all_seen _ _ _ (fun j hj => h c (by simp) j hj)
    have hr : ∀ cfg ∈ rest, ∀ j ∈ fetch_jobs cfg (pages cfg),
        seenMem seen (compositeKey cfg.name j) = true :=
      fun cfg hcf j hj => h cfg (by simp [hcf]) j hj
    simp [runAll, hc, ih hr]

theorem compositeKey_name_inj {n1 n2 : String} {j1 j2 : JobRecord}
    (hid : j1.id = j2.id) (h : compositeKey n1 j1 = compositeKey n2 j2) : n1 = n2 := by
  unfold compositeKey at h
  rw [hid] at h
  have hd := congrArg String.data h
  simp only [String.data_append] at hd
  have hd' : n1.data ++ ("::".data ++ j2.id.data) = n2.data ++ ("::".data ++ j2.id.data) := by
    simpa [List.append_assoc] using hd
  exact String.ext (List.append_cancel_right hd')

theorem mem_fetchJobsFromPage {cfg : SiteConfig} {page : Page} {r : JobRecord}
    (hr : r ∈ fetchJobsFromPage cfg page) :
    ∃ el ∈ selectElements cfg page, ∃ s, el.href = some s ∧
      r = { id := job_id el.text (urljoin cfg.url s), title := el.text,
            link := urljoin cfg.url s } := by
  rcases List.mem_filterMap.mp hr with ⟨el, hel, hrec⟩
  refine ⟨el, hel, ?_⟩
  simp only [recordOfElement] at hrec
  split_ifs at hrec with h1 h2 h3
  obtain ⟨s, hs⟩ : ∃ s, el.href = some s := by
    cases hh : el.href with
    | none => rw [hh] at h3; simp at h3
    | some s => exact ⟨s, rfl⟩
  refine ⟨s, hs, ?_⟩
  rw [hs] at hrec
  simp only [Option.getD_some] at hrec
  exact (Option.some.inj hrec).symm

theorem diffSite_singleton (n : String) (j : JobRecord) (seen : Seen) :
    diffSite n [j] seen =
      if seenMem seen (compositeKey n j) then ([], seen)
      else ([j], seenInsert seen (compositeKey n j) ⟨j.title, j.link, n⟩) := by
  by_cases h : seenMem seen (compositeKey n j) = true <;> simp [diffSite, h]

/-! ### Validation of the SHA-256 embedding against FIPS 180-4 vectors -/

theorem sha256Hex_empty_vector :
    sha256Hex "" = "e3b0c44298fc1c149afbf4c8996fb92427ae41e4649b934ca495991b7852b855" := by
  decide

theorem sha256Hex_abc_vector :
    sha256Hex "abc" = "ba7816bf8f01cfea414140de5dae2223b00361a396177a9cb410ff61f20015ad" := by
  decide

/-- Spot checks of the `urljoin` embedding against CPython outputs. -/
theorem urljoin_spot_checks :
    urljoin "http://a.example/jobs/" "job/1" = "http://a.example/jobs/job/1" ∧
    urljoin "http://a.example/jobs" "job/1" = "http://a.example/job/1" ∧
    urljoin "http://a.example/a/b/c" "../d" = "http://a.example/a/d" ∧
    urljoin "http://a.example/a/b/c" "/d/e" = "http://a.example/d/e" ∧
    urljoin "http://a.example/a" "https://b.example/x" = "https://b.example/x" ∧
    urljoin "http://a.example" "job/1" = "http://a.example/job/1" := by
  decide

/-! ### The claims -/

/-- C1: Idempotence of the detection pipeline — for every site list, every
transport outcome and every initial seen-set, re-running the
fetch-filter-diff loop against the seen-set persisted by the first run
yields an empty new-job list for every site. -/
theorem C1_pipeline_idempotent (sites : List SiteConfig)
    (pages : SiteConfig → Except String Page) (seen0 : Seen) :
    ∀ p ∈ (runAll sites pages
        (load_seen_jobs (some (some (runAll sites pages seen0).2)))).1,
      p.2 = ([] : List JobRecord) := by
  intro p hp
  have hkeys : ∀ cfg ∈ sites, ∀ j ∈ fetch_jobs cfg (pages cfg),
      seenMem (runAll sites pages seen0).2 (compositeKey cfg.name j) = true :=
    fun cfg hc j hj => runAll_mem_key sites pages seen0 cfg hc j hj
  have h2 := runAll_all_seen sites pages _ hkeys
  rw [show load_seen_jobs (some (some (runAll sites pages seen0).2))
        = (runAll sites pages seen0).2 from rfl, h2] at hp
  rcases List.mem_map.mp hp with ⟨c, _, rfl⟩
  rfl

theorem C1_pipeline_idempotent_witness :
    ("siteA", ([] : List JobRecord)) ∈ (runAll [demoC2cfg] (fun _ => Except.ok demoC2page)
        (load_seen_jobs (some (some
          (runAll [demoC2cfg] (fun _ => Except.ok demoC2page) []).2)))).1 ∧
    (("siteA", ([] : List JobRecord)) : String × List JobRecord).2 = ([] : List JobRecord) :=
  ⟨by decide, C1_pipeline_idempotent [demoC2cfg] (fun _ => Except.ok demoC2page) []
    ("siteA", ([] : List JobRecord)) (by decide)⟩

/-- C2: every record the pipeline emits has
`id = hex(sha256(title + "|" + link))[:16]`, and the id is a pure function
of `(title, link)` — identical title/link pairs give identical ids across
sites, pages and runs. -/
theorem C2_job_id_sha256 (cfg : SiteConfig) (page : Page) (r : JobRecord)
    (hr : r ∈ fetchJobsFromPage cfg page) :
    r.id = strTake (sha256Hex (r.title ++ "|" ++ r.link)) 16 ∧
    ∀ (cfg' : SiteConfig) (page' : Page) (r' : JobRecord),
      r' ∈ fetchJobsFromPage cfg' page' → r'.title = r.title → r'.link = r.link →
        r'.id = r.id := by
  have hid : ∀ (c : SiteConfig) (pg : Page) (x : JobRecord),
      x ∈ fetchJobsFromPage c pg →
        x.id = strTake (sha256Hex (x.title ++ "|" ++ x.link)) 16 := by
    intro c pg x hx
    rcases mem_fetchJobsFromPage hx with ⟨el, _, s, _, rfl⟩
    simp only [job_id]
  refine ⟨hid cfg page r hr, ?_⟩
  intro cfg' page' r' hr' ht hl
  rw [hid cfg' page' r' hr', hid cfg page r hr, ht, hl]

theorem C2_job_id_sha256_witness :
    demoC2rec ∈ fetchJobsFromPage demoC2cfg demoC2page ∧
    demoC2rec.id = strTake (sha256Hex (demoC2rec.title ++ "|" ++ demoC2rec.link)) 16 := by
  have hmem : demoC2rec ∈ fetchJobsFromPage demoC2cfg demoC2page := by decide
  exact ⟨hmem, (C2_job_id_sha256 demoC2cfg demoC2page demoC2rec hmem).1⟩

/-- C6: `is_internship` returns true iff the lowercased title contains one
of the eleven fixed keywords; in particular "Senior Software Engineer" is
dropped and "Software Engineering Intern" is kept. -/
theorem C6_internship_filter :
    (∀ title : String,
      is_internship title = true ↔
        ∃ k ∈ (["intern", "internship", "summer", "co-op", "co op", "coop",
                "student", "entry level", "new grad", "recent grad",
                "graduate program"] : List String),
          containsSub k (strLower title) = true) ∧
    is_internship "Senior Software Engineer" = false ∧
    is_internship "Software Engineering Intern" = true := by
  refine ⟨fun title => ?_, by decide, by decide⟩
  simp [is_internship, internship_keywords, List.any_eq_true]

/-- C7: a record whose composite key is already present is skipped — the
stored entry for that key is unchanged (even when the record's current
title or link differs) and the record is not added to the new-list. -/
theorem C7_write_once (site : String) (jobs : List JobRecord) (seen : Seen)
    (job : JobRecord) (h : seenMem seen (compositeKey site job) = true) :
    seenLookup (diffSite site jobs seen).2 (compositeKey site job)
      = seenLookup seen (compositeKey site job) ∧
    job ∉ (diffSite site jobs seen).1 := by
  refine ⟨diffSite_lookup_of_mem site jobs seen _ h, fun hmem => ?_⟩
  exact diffSite_new_key_not_seen site jobs seen _ h job hmem rfl

theorem C7_write_once_witness :
    seenMem demoC7seen (compositeKey "site" demoC7job) = true ∧
    (seenLookup (diffSite "site" [demoC7job] demoC7seen).2 (compositeKey "site" demoC7job)
       = seenLookup demoC7seen (compositeKey "site" demoC7job) ∧
     demoC7job ∉ (diffSite "site" [demoC7job] demoC7seen).1) :=
  ⟨by decide, C7_write_once "site" [demoC7job] demoC7seen demoC7job (by decide)⟩

/-- C9: `load_seen_jobs` never raises — an absent state file or one whose
read/parse fails yields the empty mapping, and a parsed JSON document is
returned as the loaded mapping. -/
theorem C9_corrupted_state_resilience :
    load_seen_jobs none = ([] : Seen) ∧
    load_seen_jobs (some none) = ([] : Seen) ∧
    ∀ m : Seen, load_seen_jobs (some (some m)) = m :=
  ⟨rfl, rfl, fun _ => rfl⟩

/-- C3: composite-key isolation — two sites with distinct names whose
fetches produce records with the same bare id are each classified as new
exactly once starting from the empty seen-set: both appear in the first
run's new-lists, neither in a re-run against the resulting seen-set. -/
theorem C3_composite_key_isolation (c1 c2 : SiteConfig)
    (pages : SiteConfig → Except String Page) (j1 j2 : JobRecord)
    (hne : c1.name ≠ c2.name) (hid : j1.id = j2.id)
    (h1 : fetch_jobs c1 (pages c1) = [j1]) (h2 : fetch_jobs c2 (pages c2) = [j2]) :
    (runAll [c1, c2] pages []).1 = [(c1.name, [j1]), (c2.name, [j2])] ∧
    (runAll [c1, c2] pages (runAll [c1, c2] pages []).2).1 =
      [(c1.name, []), (c2.name, [])] := by
  have hkk : (compositeKey c1.name j1 == compositeKey c2.name j2) = false := by
    rw [beq_eq_false_iff_ne]
    exact fun h => hne (compositeKey_name_inj hid h)
  have e1 : diffSite c1.name (fetch_jobs c1 (pages c1)) [] =
      ([j1], [(compositeKey c1.name j1, ⟨j1.title, j1.link, c1.name⟩)]) := by
    rw [h1, diffSite_singleton]
    simp [seenMem, seenInsert]
  have hm2 : seenMem [(compositeKey c1.name j1,
      (⟨j1.title, j1.link, c1.name⟩ : SeenEntry))] (compositeKey c2.name j2) = false := by
    simp [seenMem, hkk]
  have e2 : diffSite c2.name (fetch_jobs c2 (pages c2))
      [(compositeKey c1.name j1, ⟨j1.title, j1.link, c1.name⟩)] =
      ([j2], [(compositeKey c1.name j1, ⟨j1.title, j1.link, c1.name⟩),
              (compositeKey c2.name j2, ⟨j2.title, j2.link, c2.name⟩)]) := by
    rw [h2, diffSite_singleton, hm2]
    simp [seenInsert, hm2]
  constructor
  · simp [runAll, e1, e2]
  · have hall : ∀ cfg ∈ [c1, c2], ∀ j ∈ fetch_jobs cfg (pages cfg),
        seenMem (runAll [c1, c2] pages []).2 (compositeKey cfg.name j) = true :=
      fun cfg hc j hj => runAll_mem_key [c1, c2] pages [] cfg hc j hj
    rw [runAll_all_seen [c1, c2] pages _ hall]
    rfl

theorem C3_composite_key_isolation_witness :
    demoC3cfgA.name ≠ demoC3cfgB.name ∧
    demoC3job.id = demoC3job.id ∧
    fetch_jobs demoC3cfgA (demoC3pages demoC3cfgA) = [demoC3job] ∧
    fetch_jobs demoC3cfgB (demoC3pages demoC3cfgB) = [demoC3job] ∧
    ((runAll [demoC3cfgA, demoC3cfgB] demoC3pages []).1 =
        [(demoC3cfgA.name, [demoC3job]), (demoC3cfgB.name, [demoC3job])] ∧
     (runAll [demoC3cfgA, demoC3cfgB] demoC3pages
         (runAll [demoC3cfgA, demoC3cfgB] demoC3pages []).2).1 =
        [(demoC3cfgA.name, []), (demoC3cfgB.name, [])]) := by
  have h1 : fetch_jobs demoC3cfgA (demoC3pages demoC3cfgA) = [demoC3job] := by decide
  have h2 : fetch_jobs demoC3cfgB (demoC3pages demoC3cfgB) = [demoC3job] := by decide
  exact ⟨by decide, rfl, h1, h2,
    C3_composite_key_isolation demoC3cfgA demoC3cfgB demoC3pages demoC3job demoC3job
      (by decide) rfl h1 h2⟩

/-- C4 as stated is false: a single fetch of one site can produce two
records with the same id (duplicate markup) with neither composite key
seen, yet the new-list does not receive both as separate entries — the
first insertion makes the key seen, so the second record is skipped. -/
theorem C4_duplicate_records_counterexample :
    fetchJobsFromPage demoC4cfg demoC4page = [demoC4rec, demoC4rec] ∧
    demoC4rec.id = demoC4rec.id ∧
    seenMem [] (compositeKey demoC4cfg.name demoC4rec) = false ∧
    (diffSite demoC4cfg.name (fetchJobsFromPage demoC4cfg demoC4page) []).1.length ≠ 2 := by
  refine ⟨by decide, rfl, rfl, by decide⟩

/-- C4 amended: with two same-id records in one fetch and the composite
key initially unseen, only the FIRST record reaches the new-list and is
inserted; the second is skipped because its key is by then present, so the
seen-set entry holds the first record's title and link. -/
theorem C4_duplicate_records_amended (site : String) (j1 j2 : JobRecord) (seen : Seen)
    (hid : j1.id = j2.id) (habs : seenMem seen (compositeKey site j1) = false) :
    diffSite site [j1, j2] seen =
      ([j1], seen ++ [(compositeKey site j1,
        { title := j1.title, link := j1.link, site := site })]) := by
  have hkey : compositeKey site j2 = compositeKey site j1 := by
    unfold compositeKey
    rw [hid]
  have hins := seenInsert_of_not_mem (⟨j1.title, j1.link, site⟩ : SeenEntry) habs
  have hmem : seenMem (seen ++ [(compositeKey site j1,
      (⟨j1.title, j1.link, site⟩ : SeenEntry))]) (compositeKey site j2) = true := by
    rw [hkey, seenMem_append, seenMem_singleton]
    simp
  simp [diffSite, habs, hins, hmem]

theorem C4_duplicate_records_amended_witness :
    demoC4j1.id = demoC4j2.id ∧
    seenMem [] (compositeKey "site" demoC4j1) = false ∧
    diffSite "site" [demoC4j1, demoC4j2] [] =
      ([demoC4j1], [] ++ [(compositeKey "site" demoC4j1,
        { title := demoC4j1.title, link := demoC4j1.link, site := "site" })]) :=
  ⟨rfl, rfl, C4_duplicate_records_amended "site" demoC4j1 demoC4j2 [] rfl rfl⟩

/-- C5 as stated is false: the pipeline resolves hrefs against the site's
CONFIGURED URL, not the page's effective (post-redirect) base — on a
redirected page the stored link differs from the spec's resolution. -/
theorem C5_effective_base_counterexample :
    (fetchJobsFromPage demoC5cfg demoC5page).map JobRecord.link
      = ["http://old.example/jobs/job/1"] ∧
    specEffectiveBaseLink demoC5page "job/1" = "http://new.example/listings/job/1" ∧
    (fetchJobsFromPage demoC5cfg demoC5page).map JobRecord.link
      ≠ [specEffectiveBaseLink demoC5page "job/1"] := by
  refine ⟨by decide, by decide, by decide⟩

/-- C5 amended: every surviving element's stored link is its href resolved
per standard URL-resolution rules against the site's CONFIGURED URL (which
equals the effective base only when no redirect occurred). -/
theorem C5_link_resolution_amended (cfg : SiteConfig) (page : Page) (r : JobRecord)
    (hr : r ∈ fetchJobsFromPage cfg page) :
    ∃ el ∈ selectElements cfg page, ∃ s, el.href = some s ∧ r.link = urljoin cfg.url s := by
  rcases mem_fetchJobsFromPage hr with ⟨el, hel, s, hs, rfl⟩
  exact ⟨el, hel, s, hs, rfl⟩

theorem C5_link_resolution_amended_witness :
    demoC5rec ∈ fetchJobsFromPage demoC5cfg demoC5page ∧
    ∃ el ∈ selectElements demoC5cfg demoC5page, ∃ s, el.href = some s ∧
      demoC5rec.link = urljoin demoC5cfg.url s := by
  have hmem : demoC5rec ∈ fetchJobsFromPage demoC5cfg demoC5page := by decide
  exact ⟨hmem, C5_link_resolution_amended demoC5cfg demoC5page demoC5rec hmem⟩

/-- C8 as stated is false: a `JOB_SITES_CONFIG` that parses to an empty
array yields no site at all — "neither source yields at least one site" —
yet the run completes normally instead of failing fatally. -/
theorem C8_exit_behavior_counterexample :
    load_job_sites_config demoC8env = Except.ok [] ∧
    demoC8env.jobUrl = none ∧
    (run demoC8env (fun _ => Except.error "network down")
        (fun _ => Except.error "webhook down") (some none) (fun _ => "")).isOk = true :=
  ⟨rfl, rfl, rfl⟩

/-- C8 amended: the run fails (uncaught, process-terminating) iff the JSON
configuration source is absent or unparseable AND no fallback `JOB_URL` is
set; a successfully parsed configuration is accepted even with zero sites,
and fetch errors, webhook errors and corrupted state never prevent the run
from completing with its outputs. -/
theorem C8_exit_behavior_amended (env : Env) (pages : SiteConfig → Except String Page)
    (webhook : String → Except String Unit) (stateFile : Option (Option Seen))
    (fmtEmail : List (String × List JobRecord) → String) :
    (run env pages webhook stateFile fmtEmail).isOk
      = (configParsed env || env.jobUrl.isSome) := by
  obtain ⟨cfgv, urlv, selv, namev, whv⟩ := env
  cases cfgv with
  | none => cases urlv <;> rfl
  | some o =>
    cases o with
    | none => cases urlv <;> rfl
    | some sites => cases urlv <;> rfl

/-- C10: with no CSS selector configured, only `<a>` elements that carry
an href containing "job" case-insensitively are considered; removing any
other element from the page leaves the produced records unchanged. -/
theorem C10_fallback_selection (cfg : SiteConfig) (page : Page)
    (hsel : cfg.selector = none) :
    (∀ r ∈ fetchJobsFromPage cfg page, ∃ el ∈ page.elements,
        el.tag = "a" ∧ ∃ s, el.href = some s ∧ containsSub "job" (strLower s) = true) ∧
    (∀ (l1 l2 : List Element) (el : Element), fallbackKeeps el = false →
      fetchJobsFromPage cfg { page with elements := l1 ++ el :: l2 }
        = fetchJobsFromPage cfg { page with elements := l1 ++ l2 }) := by
  constructor
  · intro r hr
    rcases mem_fetchJobsFromPage hr with ⟨el, hel, s, hs, rfl⟩
    rw [selectElements, hsel] at hel
    rcases List.mem_filter.mp hel with ⟨hel1, hjob⟩
    rcases List.mem_filter.mp hel1 with ⟨helem, htag⟩
    rcases Bool.and_eq_true_iff.mp htag with ⟨htag1, _⟩
    refine ⟨el, helem, by simpa using htag1, s, hs, ?_⟩
    simpa [hrefHasJob, hs] using hjob
  · intro l1 l2 el hel
    unfold fetchJobsFromPage
    have hsub : selectElements cfg { page with elements := l1 ++ el :: l2 }
        = selectElements cfg { page with elements := l1 ++ l2 } := by
      rw [selectElements, selectElements, hsel]
      simp only [List.filter_append, List.filter_cons]
      by_cases hp : (el.tag == "a" && el.href.isSome) = true
      · have hq : hrefHasJob el = false := by
          cases hq : hrefHasJob el
          · rfl
          · rw [fallbackKeeps, hp, hq] at hel
            cases hel
        simp [hp, hq]
      · simp [hp]
    rw [hsub]

theorem C10_fallback_selection_witness :
    demoC10cfg.selector = none ∧
    ((∀ r ∈ fetchJobsFromPage demoC10cfg demoC10page, ∃ el ∈ demoC10page.elements,
        el.tag = "a" ∧ ∃ s, el.href = some s ∧ containsSub "job" (strLower s) = true) ∧
     (∀ (l1 l2 : List Element) (el : Element), fallbackKeeps el = false →
       fetchJobsFromPage demoC10cfg { demoC10page with elements := l1 ++ el :: l2 }
         = fetchJobsFromPage demoC10cfg { demoC10page with elements := l1 ++ l2 })) :=
  ⟨rfl, C10_fallback_selection demoC10cfg demoC10page rfl⟩

end JobWatcher
